import Mathlib

/-!
Verification of the octobe library (a thin transaction-scoped wrapper over a
SQL driver) against its natural-language specification.

The error aggregator (`errs` in `errs.go`) is embedded directly from the
source.  The Scheme/Segment implementation file is not present in the source
tree (only its tests and the spec describe it), so those operations are
modelled from the specification, as marked in their doc comments.
-/

/-- Shallow embedding of Go error values.  A `base` error is a sentinel
(such as `sql.ErrNoRows`) identified by a type tag and a message; a `wrap`
error wraps an inner error (as `fmt.Errorf` with the wrap verb does), and
carries its own type tag and message. -/
inductive GoError where
  | base (ty : Nat) (msg : String)
  | wrap (ty : Nat) (msg : String) (inner : GoError)
deriving DecidableEq, Repr

namespace GoError

/-- The `Error()` message of a Go error value. -/
def Error : GoError → String
  | .base _ m => m
  | .wrap _ m _ => m

/-- The dynamic type tag of a Go error value. -/
def ty : GoError → Nat
  | .base t _ => t
  | .wrap t _ _ => t

end GoError

/-- Embedding of `errors.Is`: identity match against the target, unwrapping
wrapped errors along the chain. -/
def goIs : GoError → GoError → Bool
  | .base t m, target => decide (GoError.base t m = target)
  | .wrap t m inner, target =>
      decide (GoError.wrap t m inner = target) || goIs inner target

/-- Embedding of `errors.As`: the target is a receptacle of some concrete
type (represented by its type tag); the test succeeds when some error in the
unwrap chain has that dynamic type. -/
def goAs : GoError → Nat → Bool
  | .base t _, target => decide (t = target)
  | .wrap t _ inner, target => decide (t = target) || goAs inner target

/-- Embedding of `type errs []error` from `errs.go`: an ordered sequence of
errors. -/
abbrev errs := List GoError

/-- Embedding of `errs.Error` from `errs.go`: format each contained error's
message with a trailing period and join with a single space
(`strings.Join(asStr, " ")`). -/
def errs.Error (e : errs) : String :=
  String.intercalate " " (e.map (fun x => x.Error ++ "."))

/-- Embedding of `errs.Is` from `errs.go`: test each contained error against
the target with `errors.Is`. -/
def errs.Is (e : errs) (target : GoError) : Bool :=
  e.any (fun candidate => goIs candidate target)

/-- Embedding of `errs.As` from `errs.go`: test each contained error against
the target receptacle with `errors.As`. -/
def errs.As (e : errs) (target : Nat) : Bool :=
  e.any (fun candidate => goAs candidate target)

/-- The spec's description of the aggregate's textual form, written exactly
as the spec states it: the concatenation of each contained error's message in
order of occurrence, each message terminated by a period, with a single space
separating consecutive entries. -/
def specAggregateMessage : List GoError → String
  | [] => ""
  | [x] => x.Error ++ "."
  | x :: y :: rest => x.Error ++ ". " ++ specAggregateMessage (y :: rest)

/-- Shallow embedding of a Go value passed as a positional SQL argument. -/
inductive GoValue where
  | vint (n : Int)
  | vstr (s : String)
deriving DecidableEq, Repr

/-- One row returned by the driver: an ordered list of column values. -/
abbrev Row := List GoValue

/-- The driver's canonical no-rows sentinel, `sql.ErrNoRows`. -/
def sqlErrNoRows : GoError := .base 1 "sql: no rows in result set"

/-- The already-executed error a Segment returns on a second execution
attempt. -/
def alreadyExecutedErr : GoError := .base 2 "this segment has already been executed"

/-- The scan error the driver reports on a column/destination mismatch. -/
def scanErr : GoError := .base 3 "sql: scan destination mismatch"

/-- Result handle of a successful `Exec`, exposing rows-affected and
last-insert-id accessors. -/
structure ExecResult where
  lastInsertId : Int
  rowsAffected : Int
deriving DecidableEq, Repr

/-- Modelled from the spec: the `Segment` data model of §3/§4.2 of the spec
(the implementation file `octobe.go` is not in the source tree).  A Segment
owns immutable SQL text, an ordered sequence of bound arguments, and an
`executed` flag. -/
structure Segment where
  sql : String
  args : List GoValue
  executed : Bool
deriving DecidableEq, Repr

/-- Modelled from the spec: `Scheme.Segment(sqlText)` constructs a Segment
with the given SQL text, an empty argument list, and `executed` = false. -/
def Segment.make (sqlText : String) : Segment :=
  ⟨sqlText, [], false⟩

/-- Modelled from the spec: `Arguments(values...)` replaces the bound
argument list. -/
def Segment.Arguments (s : Segment) (values : List GoValue) : Segment :=
  ⟨s.sql, values, s.executed⟩

/-- One execution entry point together with the response the underlying
driver would give to the call: `exec` carries the driver's result or error;
`query` carries the driver's row cursor (or error) and the caller-supplied
row handler, represented by the error it returns on those rows; `queryRow`
carries the rows the statement yields and the number of caller-supplied
destinations. -/
inductive ExecCall where
  | exec (drv : Except GoError ExecResult)
  | query (drv : Except GoError (List Row)) (handlerRes : List Row → Option GoError)
  | queryRow (rows : List Row) (ndest : Nat)

/-- Outcome of one execution entry point as observed by the caller. -/
inductive Outcome where
  | execOk (r : ExecResult)
  | queryOk
  | rowOk (scanned : Row)
  | failure (e : GoError)
deriving DecidableEq, Repr

/-- The call made against the underlying driver: SQL text plus the
positional arguments, in order. -/
structure DriverCall where
  sql : String
  args : List GoValue
deriving DecidableEq, Repr

/-- Modelled from the spec: what each entry point does once it has passed
the one-shot check and delegated to the driver.  `Exec` returns the driver's
result handle or error; `Query` invokes the row handler once on the cursor
and propagates its error (or the cursor error); `QueryRow` fails with the
driver's no-rows sentinel on zero rows, scans the first row into the
destinations otherwise, and ignores any remaining rows. -/
def callOutcome : ExecCall → Outcome
  | .exec (.error e) => .failure e
  | .exec (.ok r) => .execOk r
  | .query (.error e) _ => .failure e
  | .query (.ok rows) h =>
      match h rows with
      | none => .queryOk
      | some e => .failure e
  | .queryRow [] _ => .failure sqlErrNoRows
  | .queryRow (r :: _) ndest =>
      if r.length = ndest then .rowOk r else .failure scanErr

/-- Result of one execution entry point: the caller-visible outcome, the
call passed to the underlying driver (none when the driver was never
reached), and the Segment afterwards. -/
structure RunResult where
  outcome : Outcome
  call : Option DriverCall
  seg : Segment

/-- Modelled from the spec: the shared shape of `Exec`, `Query` and
`QueryRow` (§4.2): each entry point first checks the one-shot flag and fails
with the already-executed condition without touching the driver; otherwise
it marks the Segment executed and delegates to the driver, passing the SQL
text and the bound arguments positionally. -/
def Segment.run (s : Segment) (c : ExecCall) : RunResult :=
  if s.executed then
    ⟨.failure alreadyExecutedErr, none, s⟩
  else
    ⟨callOutcome c, some ⟨s.sql, s.args⟩, ⟨s.sql, s.args, true⟩⟩

/-- Run a sequence of execution calls against a Segment, threading the
Segment state and collecting the outcomes in order. -/
def Segment.runSeq (s : Segment) : List ExecCall → List Outcome × Segment
  | [] => ([], s)
  | c :: cs =>
      let r := s.run c
      let rest := r.seg.runSeq cs
      (r.outcome :: rest.1, rest.2)

/-- Modelled from the spec: the `Scheme` session object of §3/§4.3 (the
implementation file `octobe.go` is not in the source tree): it wraps either
a plain connection or a transaction handle, exactly one of which is
active. -/
structure Scheme where
  transactional : Bool
deriving DecidableEq, Repr

/-- A handler: a unit of logic parameterized by a Scheme, returning
success (none) or an error. -/
def Handler := Scheme → Option GoError

/-- An option recognized by `Handle`, carrying an error kind to suppress. -/
structure HandleOption where
  suppress : GoError

/-- Modelled from the spec: `SuppressError(kind)` builds the option that
makes `Handle` swallow errors matching `kind`. -/
def SuppressError (kind : GoError) : HandleOption :=
  ⟨kind⟩

/-- Modelled from the spec: `Handle(handler, ...options)` invokes the
handler with this Scheme; if the handler's returned error matches any error
configured via `SuppressError` (identity/kind matching via `errors.Is`,
supporting wrapped errors), the call returns success; otherwise the
handler's error, if any, is returned unchanged. -/
def Scheme.Handle (sch : Scheme) (handler : Handler) (opts : List HandleOption) :
    Option GoError :=
  match handler sch with
  | none => none
  | some e => if opts.any (fun o => goIs e o.suppress) then none else some e

/-- A transaction operation issued against the underlying driver. -/
inductive TxOp where
  | commit
  | rollback
deriving DecidableEq, Repr

/-- Modelled from the spec: `WatchRollback(errorSupplier)` evaluates the
supplied function; if it returns nil, no action is taken; if it returns a
non-nil error, rollback is triggered and the observed error plus any
rollback failure are collected into the error aggregate.  `fRes` is what the
supplied function returns and `rollbackRes` is what the driver's rollback
would report; the result lists the transaction operations issued against the
driver and the aggregate built, if any. -/
def Scheme.WatchRollback (fRes : Option GoError) (rollbackRes : Option GoError) :
    List TxOp × Option errs :=
  match fRes with
  | none => ([], none)
  | some e =>
      match rollbackRes with
      | none => ([.rollback], some [e])
      | some re => ([.rollback], some [e, re])

/-- Unfolding lemma for the accumulator of `String.intercalate`. -/
theorem intercalate_go_cons (s : String) (t : List String) :
    ∀ a b : String,
      String.intercalate.go a s (b :: t) = a ++ s ++ String.intercalate.go b s t := by
  induction t with
  | nil =>
      intro a b
      simp [String.intercalate.go, String.append_assoc]
  | cons x xs ih =>
      intro a b
      rw [String.intercalate.go]
      rw [ih, ih]
      simp [String.append_assoc]

/-- Cons-cons unfolding of `String.intercalate`. -/
theorem intercalate_cons_cons (s a b : String) (t : List String) :
    String.intercalate s (a :: b :: t) = a ++ s ++ String.intercalate s (b :: t) := by
  unfold String.intercalate
  exact intercalate_go_cons s t a b

/-- C2: for every ordered sequence of errors aggregated into `errs`, the
aggregate's `Error()` string equals the concatenation of each contained
error's message in order of occurrence, each message terminated by a period,
with a single space separating consecutive entries. -/
theorem errs_error_spec (e : errs) : errs.Error e = specAggregateMessage e := by
  induction e with
  | nil => rfl
  | cons x rest ih =>
      cases rest with
      | nil => rfl
      | cons y t =>
          rw [specAggregateMessage, ← ih]
          show String.intercalate " " ((x :: y :: t).map (fun z => z.Error ++ "."))
            = x.Error ++ ". " ++ errs.Error (y :: t)
          rw [List.map_cons, List.map_cons, intercalate_cons_cons]
          simp [errs.Error, String.append_assoc]

/-- C3: the aggregate's `Is(target)` returns true iff at least one contained
error matches the target under `errors.Is` semantics (identity matching
through the unwrap chain). -/
theorem errs_is_iff (e : errs) (target : GoError) :
    errs.Is e target = true ↔ ∃ c ∈ e, goIs c target = true := by
  simp [errs.Is, List.any_eq_true]

/-- C4: the aggregate's `As(target)` returns true iff at least one contained
error is assignable to the target receptacle under `errors.As` semantics
(per-element delegation through the unwrap chain). -/
theorem errs_as_iff (e : errs) (target : Nat) :
    errs.As e target = true ↔ ∃ c ∈ e, goAs c target = true := by
  simp [errs.As, List.any_eq_true]

/-- C10: the empty aggregate has the empty string as its message, and both
`Is` and `As` return false on it for every target. -/
theorem errs_empty_spec (target : GoError) (ty : Nat) :
    errs.Error ([] : errs) = "" ∧
    errs.Is ([] : errs) target = false ∧
    errs.As ([] : errs) ty = false := by
  refine ⟨rfl, ?_, ?_⟩ <;> simp [errs.Is, errs.As]

/-- On an already-executed Segment every entry point fails with the
already-executed error, makes no driver call, and leaves the Segment
unchanged. -/
theorem run_of_executed (s : Segment) (c : ExecCall) (h : s.executed = true) :
    s.run c = ⟨.failure alreadyExecutedErr, none, s⟩ := by
  simp [Segment.run, h]

/-- After any execution call the Segment's `executed` flag is true. -/
theorem run_seg_executed (s : Segment) (c : ExecCall) :
    (s.run c).seg.executed = true := by
  by_cases h : s.executed = true
  · simp [Segment.run, h]
  · simp at h
    simp [Segment.run, h]

/-- A whole call sequence against an already-executed Segment yields only
already-executed failures and never changes the Segment. -/
theorem runSeq_of_executed (cs : List ExecCall) :
    ∀ s : Segment, s.executed = true →
      (∀ o ∈ (s.runSeq cs).1, o = Outcome.failure alreadyExecutedErr) ∧
      (s.runSeq cs).2 = s := by
  induction cs with
  | nil =>
      intro s _
      exact ⟨by intro o ho; simp [Segment.runSeq] at ho, rfl⟩
  | cons c cs ih =>
      intro s h
      have hrun := run_of_executed s c h
      have hrec := ih (s.run c).seg (by rw [hrun]; exact h)
      constructor
      · intro o ho
        simp only [Segment.runSeq, List.mem_cons] at ho
        rcases ho with ho | ho
        · rw [ho, hrun]
        · exact hrec.1 o ho
      · show ((s.run c).seg.runSeq cs).2 = s
        rw [hrec.2, hrun]

/-- C1: from an unexecuted Segment, whichever of Exec/Query/QueryRow is
called first flips the Segment to executed, and every later call of any of
the three fails with the already-executed condition; the flag never reverts
and the Segment no longer changes. -/
theorem segment_one_shot (s : Segment) (c : ExecCall) (cs : List ExecCall)
    (_h : s.executed = false) :
    (s.run c).seg.executed = true ∧
    (∀ o ∈ ((s.run c).seg.runSeq cs).1, o = Outcome.failure alreadyExecutedErr) ∧
    ((s.run c).seg.runSeq cs).2 = (s.run c).seg := by
  have hex := run_seg_executed s c
  have hrec := runSeq_of_executed cs (s.run c).seg hex
  exact ⟨hex, hrec.1, hrec.2⟩

/-- Witness for C1: a concrete unexecuted Segment, first executed via Exec,
then hit with a Query and a QueryRow, both of which fail with the
already-executed error. -/
theorem segment_one_shot_witness :
    (Segment.make "UPDATE products").executed = false ∧
    (((Segment.make "UPDATE products").run (.exec (.ok ⟨1, 1⟩))).seg.executed = true ∧
      (∀ o ∈ (((Segment.make "UPDATE products").run (.exec (.ok ⟨1, 1⟩))).seg.runSeq
          [.query (.ok []) (fun _ => none), .queryRow [] 2]).1,
        o = Outcome.failure alreadyExecutedErr) ∧
      (((Segment.make "UPDATE products").run (.exec (.ok ⟨1, 1⟩))).seg.runSeq
          [.query (.ok []) (fun _ => none), .queryRow [] 2]).2
        = ((Segment.make "UPDATE products").run (.exec (.ok ⟨1, 1⟩))).seg) :=
  ⟨rfl, segment_one_shot (Segment.make "UPDATE products") (.exec (.ok ⟨1, 1⟩))
    [.query (.ok []) (fun _ => none), .queryRow [] 2] rfl⟩

/-- C6: on an unexecuted Segment, `QueryRow` fails with the driver's no-rows
sentinel when the statement yields zero rows; when it yields at least one
row whose width matches the destination count, it scans exactly the first
row into the destinations and succeeds, whatever the remaining rows are. -/
theorem queryRow_semantics (s : Segment) (ndest : Nat) (h : s.executed = false) :
    ((s.run (.queryRow [] ndest)).outcome = .failure sqlErrNoRows) ∧
    (∀ r rest, r.length = ndest →
      (s.run (.queryRow (r :: rest) ndest)).outcome = .rowOk r) := by
  constructor
  · simp [Segment.run, h, callOutcome]
  · intro r rest hr
    simp [Segment.run, h, callOutcome, hr]

/-- Witness for C6: a concrete unexecuted Segment sees the no-rows sentinel
on an empty result and scans the first of two rows on a two-row result. -/
theorem queryRow_semantics_witness :
    ((Segment.make "SELECT id, name FROM products").run (.queryRow [] 2)).outcome
        = .failure sqlErrNoRows ∧
    ((Segment.make "SELECT id, name FROM products").run
        (.queryRow [[.vint 1, .vstr "mirror"], [.vint 2, .vstr "headset"]] 2)).outcome
      = .rowOk [.vint 1, .vstr "mirror"] := by
  have h := queryRow_semantics (Segment.make "SELECT id, name FROM products") 2 rfl
  exact ⟨h.1, h.2 [.vint 1, .vstr "mirror"] [[.vint 2, .vstr "headset"]] rfl⟩

/-- C8: executing a Segment whose arguments were bound via `Arguments`
passes exactly those values to the underlying driver call, positionally and
in the order supplied, for every entry point. -/
theorem arguments_roundtrip (s : Segment) (values : List GoValue) (c : ExecCall)
    (h : s.executed = false) :
    ((s.Arguments values).run c).call = some ⟨s.sql, values⟩ := by
  simp [Segment.Arguments, Segment.run, h]

/-- Witness for C8: binding two concrete arguments and executing passes them
in order to the driver. -/
theorem arguments_roundtrip_witness :
    (((Segment.make "UPDATE products").Arguments [.vint 1, .vstr "bar"]).run
        (.queryRow [[.vint 1]] 1)).call
      = some ⟨"UPDATE products", [.vint 1, .vstr "bar"]⟩ :=
  arguments_roundtrip (Segment.make "UPDATE products") [.vint 1, .vstr "bar"]
    (.queryRow [[.vint 1]] 1) rfl

/-- C9: `Arguments` replaces the bound argument list (whatever was bound
before), and on an already-executed Segment it has no observable effect on
any execution outcome: every entry point yields the same outcome and the
same (absent) driver call as without the `Arguments` call. -/
theorem arguments_replace (s : Segment) (values : List GoValue) :
    (s.Arguments values).args = values ∧
    (s.executed = true → ∀ c : ExecCall,
      ((s.Arguments values).run c).outcome = (s.run c).outcome ∧
      ((s.Arguments values).run c).call = (s.run c).call) := by
  refine ⟨rfl, ?_⟩
  intro h c
  have h' : (s.Arguments values).executed = true := h
  rw [run_of_executed s c h, run_of_executed (s.Arguments values) c h']
  exact ⟨rfl, rfl⟩

/-- Witness for C9: rebinding on a concrete Segment replaces the earlier
argument list, and on an executed Segment rebinding changes no execution
outcome. -/
theorem arguments_replace_witness :
    ((⟨"q", [GoValue.vint 7], true⟩ : Segment).Arguments [.vstr "x"]).args = [.vstr "x"] ∧
    (((⟨"q", [GoValue.vint 7], true⟩ : Segment).Arguments [.vstr "x"]).run
          (.exec (.ok ⟨1, 1⟩))).outcome
        = ((⟨"q", [GoValue.vint 7], true⟩ : Segment).run (.exec (.ok ⟨1, 1⟩))).outcome ∧
    (((⟨"q", [GoValue.vint 7], true⟩ : Segment).Arguments [.vstr "x"]).run
          (.exec (.ok ⟨1, 1⟩))).call
        = ((⟨"q", [GoValue.vint 7], true⟩ : Segment).run (.exec (.ok ⟨1, 1⟩))).call := by
  have h := arguments_replace (⟨"q", [GoValue.vint 7], true⟩ : Segment) [.vstr "x"]
  exact ⟨h.1, (h.2 rfl (.exec (.ok ⟨1, 1⟩))).1, (h.2 rfl (.exec (.ok ⟨1, 1⟩))).2⟩

/-- C5: when the handler returns an error, `Handle` with `SuppressError K`
returns success whenever that error matches kind `K` under `errors.Is`
(including through wrapping), and returns the handler's error unchanged (the
identical error value) whenever it does not match. -/
theorem handle_suppress (sch : Scheme) (handler : Handler) (K e : GoError)
    (he : handler sch = some e) :
    (goIs e K = true → sch.Handle handler [SuppressError K] = none) ∧
    (goIs e K = false → sch.Handle handler [SuppressError K] = some e) := by
  constructor
  · intro hm
    simp [Scheme.Handle, he, SuppressError, hm]
  · intro hm
    simp [Scheme.Handle, he, SuppressError, hm]

/-- Witness for C5: a handler returning `sql.ErrNoRows` wrapped in another
error is suppressed by `SuppressError sqlErrNoRows` (the match reaches `K`
through the wrapping), while suppressing a different kind leaves the
identical error in place. -/
theorem handle_suppress_witness :
    (Scheme.mk true).Handle (fun _ => some (GoError.wrap 9 "query products" sqlErrNoRows))
        [SuppressError sqlErrNoRows] = none ∧
    (Scheme.mk true).Handle (fun _ => some (GoError.wrap 9 "query products" sqlErrNoRows))
        [SuppressError alreadyExecutedErr]
      = some (GoError.wrap 9 "query products" sqlErrNoRows) := by
  have h1 := handle_suppress (Scheme.mk true)
    (fun _ => some (GoError.wrap 9 "query products" sqlErrNoRows))
    sqlErrNoRows (GoError.wrap 9 "query products" sqlErrNoRows) rfl
  have h2 := handle_suppress (Scheme.mk true)
    (fun _ => some (GoError.wrap 9 "query products" sqlErrNoRows))
    alreadyExecutedErr (GoError.wrap 9 "query products" sqlErrNoRows) rfl
  exact ⟨h1.1 (by decide), h2.2 (by decide)⟩

/-- C7: `WatchRollback` issues no transaction operation when the watched
function returns nil; when it returns an error, it issues exactly one
rollback (never a commit) and builds an aggregate containing at least the
original error, plus the rollback's own error when the rollback also
fails. -/
theorem watchRollback_spec (fRes rollbackRes : Option GoError) :
    (fRes = none → Scheme.WatchRollback fRes rollbackRes = ([], none)) ∧
    (∀ e, fRes = some e →
      (Scheme.WatchRollback fRes rollbackRes).1 = [TxOp.rollback] ∧
      TxOp.commit ∉ (Scheme.WatchRollback fRes rollbackRes).1 ∧
      ∃ ag : errs, (Scheme.WatchRollback fRes rollbackRes).2 = some ag ∧
        e ∈ ag ∧ ∀ re, rollbackRes = some re → re ∈ ag) := by
  constructor
  · intro h
    subst h
    rfl
  · intro e h
    subst h
    cases rollbackRes with
    | none =>
        refine ⟨rfl, by simp [Scheme.WatchRollback], [e], rfl, ?_, ?_⟩
        · simp
        · intro re hre
          cases hre
    | some re =>
        refine ⟨rfl, by simp [Scheme.WatchRollback], [e, re], rfl, ?_, ?_⟩
        · simp
        · intro re' hre'
          cases hre'
          simp

/-- Witness for C7: a concrete watched error with a failing rollback yields
exactly one rollback, no commit, and an aggregate holding both errors. -/
theorem watchRollback_spec_witness :
    (Scheme.WatchRollback (some sqlErrNoRows) (some scanErr)).1 = [TxOp.rollback] ∧
    TxOp.commit ∉ (Scheme.WatchRollback (some sqlErrNoRows) (some scanErr)).1 ∧
    (∃ ag : errs, (Scheme.WatchRollback (some sqlErrNoRows) (some scanErr)).2 = some ag ∧
      sqlErrNoRows ∈ ag ∧ ∀ re, (some scanErr : Option GoError) = some re → re ∈ ag) ∧
    Scheme.WatchRollback none none = ([], none) := by
  have h := watchRollback_spec (some sqlErrNoRows) (some scanErr)
  have h0 := watchRollback_spec (none : Option GoError) (none : Option GoError)
  have hm := h.2 sqlErrNoRows rfl
  exact ⟨hm.1, hm.2.1, hm.2.2, h0.1 rfl⟩
